import Mathlib

/-!
Shallow embedding of `src/escursor/escursor.py` (the `ESCursor` batched
pagination cursor and its `get_total_hits` helper), together with proofs of
the specification claims about it.

Modelling conventions:
* A query body (a Python dict used as a search request body) is an
  association list from field names to integer values; only the paging
  fields `from` and `size` carry meaning for the cursor, all other fields
  are opaque template entries.  Python dict lookup is `lookupKey`,
  `body[k] = v` on a fresh/copied dict is `setKey`, and `'k' in body` is
  `hasKey`.  The source never mutates a stored dict in place: it works on
  `body.copy()` (line 6) and on the fresh merge `{**self.body, ...}`
  (line 61), so persistent association lists model it faithfully.
* A document is opaque; we represent documents by `Nat`.
* The Elasticsearch connection is a pure function from a request body to a
  response holding the reported total and the hit window (the cursor only
  ever reads `res['hits']['total']` and `res['hits']['hits']`).  Claims
  quantify over arbitrary such backends; `sliceBackend L` is the faithful
  backend over a fixed ordered match list `L` (offset/limit windowing).
* `raise StopIteration` becomes an explicit `stopped`/`result = none`
  signal in the step functions' outputs; state mutation that happened
  before the raise is kept, exactly as in Python.
* Iteration (`for doc in cursor`) is `ESCursor.runPass`: `__iter__`
  followed by repeated `__next__` until `StopIteration`, driven by fuel;
  `finished = true` records that the pass reached `StopIteration` rather
  than running out of fuel.  The run also logs every windowed search
  request issued together with the window the backend returned for it.
-/

/-- A flat key-value query body; Python `dict` restricted to the integer
fields the cursor reads and writes. -/
abbrev Body := List (String × Int)

/-- Python `body[k]`: the value stored under key `k`, if any. -/
def lookupKey : Body → String → Option Int
  | [], _ => none
  | p :: t, k => if p.1 = k then some p.2 else lookupKey t k

/-- Remove a key from a body (used to model dict update semantics). -/
def eraseKey : Body → String → Body
  | [], _ => []
  | p :: t, k => if p.1 = k then eraseKey t k else p :: eraseKey t k

/-- Python `k in body`. -/
def hasKey (b : Body) (k : String) : Bool :=
  b.any (fun p => p.1 == k)

/-- Python `body[k] = v` on a dict we own (copy or fresh merge): the
resulting dict maps `k` to `v` and every other key as before. -/
def setKey (b : Body) (k : String) (v : Int) : Body :=
  (k, v) :: eraseKey b k

/-- The part of an Elasticsearch search response the cursor reads:
`res['hits']['total']` and `res['hits']['hits']`. -/
structure ESResponse where
  total : Nat
  hits : List Nat

/-- A search backend: a pure map from request bodies to responses,
modelling `es_conn.search(index=..., doc_type=..., body=...)` for the
fixed index and doc_type held by one cursor. -/
abbrev Backend := Body → ESResponse

/-- The request body `get_total_hits` sends: `body = body.copy()`, then
`if 'size' not in body: body['size'] = 0` (escursor.py lines 6-8). -/
def countBody (body : Body) : Body :=
  if hasKey body "size" then body else setKey body "size" 0

/-- `get_total_hits(es_conn, index, doc_type, body)` (escursor.py
lines 5-10): issue the count request and return `res['hits']['total']`. -/
def get_total_hits (es : Backend) (body : Body) : Nat :=
  (es (countBody body)).total

/-- The search requests issued during `ESCursor.__init__`: exactly the one
count request made by its single `get_total_hits` call (line 26). -/
def constructorRequests (body : Body) : List Body :=
  [countBody body]

/-- The mutable attributes of a Python `ESCursor` instance (the connection,
index and doc_type are absorbed into the `Backend` function). -/
structure ESCursor where
  body : Body
  total_number : Int
  batch_size : Int
  offset : Int
  inbtach_idx : Nat
  hits : List Nat
  current_batch_size : Nat

/-- `ESCursor.__init__` (escursor.py lines 17-37): obtain the actual total
via `get_total_hits`, cap `total_number` by it when supplied (or use it
when not), cap `batch_size` by `total_number`, and zero the paging
state. -/
def ESCursor.init (es : Backend) (body : Body) (total_number : Option Int)
    (batch_size : Int) : ESCursor :=
  let actual_total_number : Int := get_total_hits es body
  let tn : Int :=
    match total_number with
    | none => actual_total_number
    | some n => if n > actual_total_number then actual_total_number else n
  let bs : Int := if batch_size < tn then batch_size else tn
  ⟨body, tn, bs, 0, 0, [], 0⟩

/-- The windowed request body `{**self.body, "from": offset, "size":
batch_size}` (escursor.py line 61): the stored template with the two
paging fields merged in, the paging fields taking precedence. -/
def mergedBody (body : Body) (offset batch : Int) : Body :=
  setKey (setKey body "from" offset) "size" batch

/-- Outcome of `_fetch_next_batch`: the updated state, the windowed search
request it issued (paired with the window the backend returned), if any,
and whether it raised `StopIteration`. -/
structure FetchOut where
  state : ESCursor
  request : Option (Body × List Nat)
  stopped : Bool

/-- `ESCursor._fetch_next_batch` (escursor.py lines 50-67): advance the
offset by the size of the window just consumed; raise `StopIteration`
when the offset reaches `total_number`; otherwise issue the windowed
search and install the returned window. -/
def ESCursor.fetch_next_batch (es : Backend) (c : ESCursor) : FetchOut :=
  let o : Int := c.offset + (c.current_batch_size : Int)
  if o ≥ c.total_number then
    ⟨{ c with offset := o }, none, true⟩
  else
    let b := mergedBody c.body o c.batch_size
    let h := (es b).hits
    let s : ESCursor :=
      { c with offset := o, hits := h, current_batch_size := h.length, inbtach_idx := 0 }
    ⟨s, some (b, h), false⟩

/-- Outcome of `__next__`: the updated state, the windowed request issued
during the call (if any), and the returned document — `none` meaning the
call raised `StopIteration`. -/
structure NextOut where
  state : ESCursor
  request : Option (Body × List Nat)
  result : Option Nat

/-- `ESCursor.__next__` (escursor.py lines 69-86): serve from the current
window when it still has documents; otherwise fetch the next batch, and
raise `StopIteration` when the fetch raised it or returned an empty
window; else return `hits[inbtach_idx]` and advance `inbtach_idx`. -/
def ESCursor.next (es : Backend) (c : ESCursor) : NextOut :=
  if c.inbtach_idx ≥ c.current_batch_size then
    let f := ESCursor.fetch_next_batch es c
    if f.stopped then
      ⟨f.state, f.request, none⟩
    else if f.state.inbtach_idx = f.state.current_batch_size then
      ⟨f.state, f.request, none⟩
    else
      ⟨{ f.state with inbtach_idx := f.state.inbtach_idx + 1 }, f.request,
        some (f.state.hits.getD f.state.inbtach_idx 0)⟩
  else
    ⟨{ c with inbtach_idx := c.inbtach_idx + 1 }, none,
      some (c.hits.getD c.inbtach_idx 0)⟩

/-- Outcome of `__iter__`: the updated state, the windowed request its
first fetch issued (if any), and whether that fetch raised
`StopIteration`. -/
structure IterOut where
  state : ESCursor
  request : Option (Body × List Nat)
  stopped : Bool

/-- `ESCursor.__iter__` (escursor.py lines 39-48): reset `offset`,
`inbtach_idx` and `current_batch_size` to zero and fetch the first
batch. -/
def ESCursor.iter (es : Backend) (c : ESCursor) : IterOut :=
  let c0 : ESCursor :=
    { c with offset := 0, inbtach_idx := 0, current_batch_size := 0 }
  let f := ESCursor.fetch_next_batch es c0
  ⟨f.state, f.request, f.stopped⟩

/-- Result of driving `__next__` repeatedly: the documents yielded in
order, the log of windowed search requests issued (each with the window
returned for it), the final state, and whether the drive ended with
`StopIteration` (`finished = true`) rather than by exhausting fuel. -/
structure RunOut where
  docs : List Nat
  log : List (Body × List Nat)
  state : ESCursor
  finished : Bool

/-- Drive `__next__` until it raises `StopIteration` (or fuel runs out),
collecting the yielded documents and the windowed requests issued. -/
def ESCursor.run (es : Backend) : Nat → ESCursor → RunOut
  | 0, c => ⟨[], [], c, false⟩
  | fuel + 1, c =>
    let n := ESCursor.next es c
    match n.result with
    | none => ⟨[], n.request.toList, n.state, true⟩
    | some d =>
      let r := ESCursor.run es fuel n.state
      ⟨d :: r.docs, n.request.toList ++ r.log, r.state, r.finished⟩

/-- One full iteration pass, as a `for` loop performs it: `__iter__`
followed by `__next__` until `StopIteration`. -/
def ESCursor.runPass (es : Backend) (fuel : Nat) (c : ESCursor) : RunOut :=
  let i := ESCursor.iter es c
  if i.stopped then
    ⟨[], [], i.state, true⟩
  else
    let r := ESCursor.run es fuel i.state
    ⟨r.docs, i.request.toList ++ r.log, r.state, r.finished⟩

/-- The faithful offset/limit backend over a fixed ordered match list `L`:
the reported total is `L.length` and a request returns the window of `L`
starting at its `from` field with length its `size` field. -/
def sliceBackend (L : List Nat) : Backend := fun b =>
  ⟨L.length,
    (L.drop ((lookupKey b "from").getD 0).toNat).take
      ((lookupKey b "size").getD 10000).toNat⟩

/-- Apply `__next__` `k` times, keeping only the state. -/
def ESCursor.iterateNext (es : Backend) (c : ESCursor) : Nat → ESCursor
  | 0 => c
  | k + 1 => (ESCursor.next es (ESCursor.iterateNext es c k)).state

/-- Well-formed request log starting from paging offset `o`: every
windowed request body is the stored template `bd` merged with
`from = current offset` and `size = B`, and the offset of each later
request is the previous offset advanced by exactly the length of the
window the backend returned for the previous request. -/
inductive ChainedLog (bd : Body) (B : Int) : Int → List (Body × List Nat) → Prop where
  | nil : ∀ o, ChainedLog bd B o []
  | cons : ∀ o h rest,
      ChainedLog bd B (o + (h.length : Int)) rest →
      ChainedLog bd B o ((mergedBody bd o B, h) :: rest)

/-- Backend used to refute the strict-increase part of claim C5: the count
request reports 5 matching documents but every windowed fetch returns an
empty window, so one pass issues two fetches at the same offset 0. -/
def emptyBackend5 : Backend := fun _ => ⟨5, []⟩

/-- Backend used to refute claim C4: the window at offset 10 is short
(3 documents instead of the requested 10) but later offsets still hold
documents, so the cursor keeps fetching past the short window. -/
def c4Backend : Backend := fun b =>
  match lookupKey b "from" with
  | some 10 => ⟨25, [10, 11, 12]⟩
  | some o => ⟨25, (List.range 10).map (fun t => o.toNat + t)⟩
  | none => ⟨25, []⟩

/-- Scenario-D backend (concurrent deletion): the window at offset 10 is
short (3 documents) and every later offset returns an empty window. -/
def c4DeletionBackend : Backend := fun b =>
  match lookupKey b "from" with
  | some 0 => ⟨25, List.range 10⟩
  | some 10 => ⟨25, [10, 11, 12]⟩
  | _ => ⟨25, []⟩

/-! ### Association-list lemmas -/

theorem lookupKey_cons (p : String × Int) (t : Body) (k : String) :
    lookupKey (p :: t) k = if p.1 = k then some p.2 else lookupKey t k := rfl

theorem eraseKey_cons (p : String × Int) (t : Body) (k : String) :
    eraseKey (p :: t) k = if p.1 = k then eraseKey t k else p :: eraseKey t k := rfl

theorem lookupKey_eraseKey (b : Body) (k k' : String) (h : k' ≠ k) :
    lookupKey (eraseKey b k) k' = lookupKey b k' := by
  induction b with
  | nil => rfl
  | cons p t ih =>
    rw [eraseKey_cons, lookupKey_cons]
    by_cases h1 : p.1 = k
    · rw [if_pos h1, if_neg (by rw [h1]; exact fun he => h he.symm), ih]
    · rw [if_neg h1, lookupKey_cons, ih]

theorem lookupKey_setKey_self (b : Body) (k : String) (v : Int) :
    lookupKey (setKey b k v) k = some v := by
  rw [setKey, lookupKey_cons, if_pos rfl]

theorem lookupKey_setKey_ne (b : Body) (k k' : String) (v : Int) (h : k' ≠ k) :
    lookupKey (setKey b k v) k' = lookupKey b k' := by
  rw [setKey, lookupKey_cons, if_neg (fun he => h he.symm)]
  exact lookupKey_eraseKey b k k' h

theorem mergedBody_from (bd : Body) (o B : Int) :
    lookupKey (mergedBody bd o B) "from" = some o := by
  rw [mergedBody, lookupKey_setKey_ne _ _ _ _ (by decide), lookupKey_setKey_self]

theorem mergedBody_size (bd : Body) (o B : Int) :
    lookupKey (mergedBody bd o B) "size" = some B := by
  rw [mergedBody, lookupKey_setKey_self]

theorem mergedBody_other (bd : Body) (o B : Int) (k : String)
    (h1 : k ≠ "from") (h2 : k ≠ "size") :
    lookupKey (mergedBody bd o B) k = lookupKey bd k := by
  rw [mergedBody, lookupKey_setKey_ne _ _ _ _ h2, lookupKey_setKey_ne _ _ _ _ h1]

theorem sliceBackend_merged (L : List Nat) (bd : Body) (o B : Int) :
    (sliceBackend L (mergedBody bd o B)).hits =
      (L.drop o.toNat).take B.toNat := by
  simp [sliceBackend, mergedBody_from, mergedBody_size]

/-! ### Case lemmas for the step functions -/

theorem fetch_stop (es : Backend) (c : ESCursor)
    (h : c.total_number ≤ c.offset + (c.current_batch_size : Int)) :
    ESCursor.fetch_next_batch es c =
      ⟨{ c with offset := c.offset + (c.current_batch_size : Int) }, none, true⟩ := by
  simp only [ESCursor.fetch_next_batch]
  rw [if_pos h]

theorem fetch_go (es : Backend) (c : ESCursor)
    (h : c.offset + (c.current_batch_size : Int) < c.total_number) :
    ESCursor.fetch_next_batch es c =
      ⟨{ c with
          offset := c.offset + (c.current_batch_size : Int),
          hits := (es (mergedBody c.body (c.offset + (c.current_batch_size : Int)) c.batch_size)).hits,
          current_batch_size := (es (mergedBody c.body (c.offset + (c.current_batch_size : Int)) c.batch_size)).hits.length,
          inbtach_idx := 0 },
        some (mergedBody c.body (c.offset + (c.current_batch_size : Int)) c.batch_size,
          (es (mergedBody c.body (c.offset + (c.current_batch_size : Int)) c.batch_size)).hits),
        false⟩ := by
  simp only [ESCursor.fetch_next_batch]
  rw [if_neg (by omega)]

theorem next_yield (es : Backend) (c : ESCursor)
    (h : c.inbtach_idx < c.current_batch_size) :
    ESCursor.next es c =
      ⟨{ c with inbtach_idx := c.inbtach_idx + 1 }, none,
        some (c.hits.getD c.inbtach_idx 0)⟩ := by
  simp only [ESCursor.next]
  rw [if_neg (by omega)]

theorem next_stop (es : Backend) (c : ESCursor)
    (h1 : c.current_batch_size ≤ c.inbtach_idx)
    (h2 : c.total_number ≤ c.offset + (c.current_batch_size : Int)) :
    ESCursor.next es c =
      ⟨{ c with offset := c.offset + (c.current_batch_size : Int) }, none, none⟩ := by
  simp only [ESCursor.next]
  rw [if_pos h1, fetch_stop es c h2]
  rfl

theorem next_fetch_empty (es : Backend) (c : ESCursor)
    (h1 : c.current_batch_size ≤ c.inbtach_idx)
    (h2 : c.offset + (c.current_batch_size : Int) < c.total_number)
    (h3 : (es (mergedBody c.body (c.offset + (c.current_batch_size : Int)) c.batch_size)).hits = []) :
    ESCursor.next es c =
      ⟨{ c with
          offset := c.offset + (c.current_batch_size : Int),
          hits := [], current_batch_size := 0, inbtach_idx := 0 },
        some (mergedBody c.body (c.offset + (c.current_batch_size : Int)) c.batch_size, []),
        none⟩ := by
  simp only [ESCursor.next]
  rw [if_pos h1, fetch_go es c h2]
  simp [h3]

theorem next_fetch_cons (es : Backend) (c : ESCursor) (d : Nat) (t : List Nat)
    (h1 : c.current_batch_size ≤ c.inbtach_idx)
    (h2 : c.offset + (c.current_batch_size : Int) < c.total_number)
    (h3 : (es (mergedBody c.body (c.offset + (c.current_batch_size : Int)) c.batch_size)).hits = d :: t) :
    ESCursor.next es c =
      ⟨{ c with
          offset := c.offset + (c.current_batch_size : Int),
          hits := d :: t, current_batch_size := t.length + 1, inbtach_idx := 1 },
        some (mergedBody c.body (c.offset + (c.current_batch_size : Int)) c.batch_size, d :: t),
        some d⟩ := by
  simp only [ESCursor.next]
  rw [if_pos h1, fetch_go es c h2]
  simp [h3]

theorem run_zero (es : Backend) (c : ESCursor) :
    ESCursor.run es 0 c = ⟨[], [], c, false⟩ := rfl

theorem run_succ_none (es : Backend) (fuel : Nat) (c : ESCursor)
    (h : (ESCursor.next es c).result = none) :
    ESCursor.run es (fuel + 1) c =
      ⟨[], (ESCursor.next es c).request.toList, (ESCursor.next es c).state, true⟩ := by
  simp only [ESCursor.run, h]

theorem run_succ_some (es : Backend) (fuel : Nat) (c : ESCursor) (d : Nat)
    (h : (ESCursor.next es c).result = some d) :
    ESCursor.run es (fuel + 1) c =
      ⟨d :: (ESCursor.run es fuel (ESCursor.next es c).state).docs,
        (ESCursor.next es c).request.toList ++ (ESCursor.run es fuel (ESCursor.next es c).state).log,
        (ESCursor.run es fuel (ESCursor.next es c).state).state,
        (ESCursor.run es fuel (ESCursor.next es c).state).finished⟩ := by
  simp only [ESCursor.run, h]

/-! ### List access helpers -/

theorem drop_getD_cons (L : List Nat) (n : Nat) (h : n < L.length) :
    L.drop n = L.getD n 0 :: L.drop (n + 1) := by
  induction L generalizing n with
  | nil => simp at h
  | cons a t ih =>
    cases n with
    | zero => rfl
    | succ m => exact ih m (by simpa using h)

theorem getD_take (l : List Nat) (m i : Nat) (h : i < m) :
    (l.take m).getD i 0 = l.getD i 0 := by
  induction l generalizing m i with
  | nil => simp
  | cons a t ih =>
    cases m with
    | zero => omega
    | succ m2 =>
      cases i with
      | zero => rfl
      | succ i2 => exact ih m2 i2 (by omega)

theorem getD_drop (l : List Nat) (o i : Nat) :
    (l.drop o).getD i 0 = l.getD (o + i) 0 := by
  induction l generalizing o with
  | nil => simp
  | cons a t ih =>
    cases o with
    | zero => simp
    | succ o2 =>
      have he : o2 + 1 + i = (o2 + i) + 1 := by omega
      rw [he]
      exact ih o2

/-! ### Frame lemmas: fields never written by the step functions -/

theorem next_preserved (es : Backend) (c : ESCursor) :
    (ESCursor.next es c).state.body = c.body ∧
    (ESCursor.next es c).state.total_number = c.total_number ∧
    (ESCursor.next es c).state.batch_size = c.batch_size := by
  rcases Nat.lt_or_ge c.inbtach_idx c.current_batch_size with hlt | hge
  · rw [next_yield es c hlt]; exact ⟨rfl, rfl, rfl⟩
  · rcases le_or_lt c.total_number (c.offset + (c.current_batch_size : Int)) with hstop | hgo
    · rw [next_stop es c hge hstop]; exact ⟨rfl, rfl, rfl⟩
    · cases hh : (es (mergedBody c.body (c.offset + (c.current_batch_size : Int)) c.batch_size)).hits with
      | nil => rw [next_fetch_empty es c hge hgo hh]; exact ⟨rfl, rfl, rfl⟩
      | cons d t => rw [next_fetch_cons es c d t hge hgo hh]; exact ⟨rfl, rfl, rfl⟩

theorem iter_preserved (es : Backend) (c : ESCursor) :
    (ESCursor.iter es c).state.body = c.body ∧
    (ESCursor.iter es c).state.total_number = c.total_number ∧
    (ESCursor.iter es c).state.batch_size = c.batch_size := by
  simp only [ESCursor.iter, ESCursor.fetch_next_batch]
  split_ifs <;> exact ⟨rfl, rfl, rfl⟩

theorem run_preserved (es : Backend) : ∀ (fuel : Nat) (c : ESCursor),
    (ESCursor.run es fuel c).state.body = c.body ∧
    (ESCursor.run es fuel c).state.total_number = c.total_number ∧
    (ESCursor.run es fuel c).state.batch_size = c.batch_size := by
  intro fuel
  induction fuel with
  | zero => intro c; exact ⟨rfl, rfl, rfl⟩
  | succ n ih =>
    intro c
    rcases hr : (ESCursor.next es c).result with _ | d
    · rw [run_succ_none es n c hr]
      exact next_preserved es c
    · rw [run_succ_some es n c d hr]
      have h1 := ih (ESCursor.next es c).state
      have h2 := next_preserved es c
      exact ⟨h1.1.trans h2.1, h1.2.1.trans h2.2.1, h1.2.2.trans h2.2.2⟩

theorem runPass_preserved (es : Backend) (fuel : Nat) (c : ESCursor) :
    (ESCursor.runPass es fuel c).state.body = c.body ∧
    (ESCursor.runPass es fuel c).state.total_number = c.total_number ∧
    (ESCursor.runPass es fuel c).state.batch_size = c.batch_size := by
  rw [ESCursor.runPass]
  have h1 := iter_preserved es c
  split_ifs
  · exact h1
  · have h2 := run_preserved es fuel (ESCursor.iter es c).state
    exact ⟨h2.1.trans h1.1, h2.2.1.trans h1.2.1, h2.2.2.trans h1.2.2⟩

/-! ### Case lemmas for `__iter__` and `runPass` -/

theorem iter_stop (es : Backend) (c : ESCursor) (h : c.total_number ≤ 0) :
    ESCursor.iter es c =
      ⟨{ c with offset := 0, inbtach_idx := 0, current_batch_size := 0 }, none, true⟩ := by
  simp only [ESCursor.iter, ESCursor.fetch_next_batch]
  norm_num
  rw [if_pos h]
  exact ⟨rfl, rfl, rfl⟩

theorem iter_go (es : Backend) (c : ESCursor) (h : 0 < c.total_number) :
    ESCursor.iter es c =
      ⟨{ c with offset := 0, inbtach_idx := 0, hits := (es (mergedBody c.body 0 c.batch_size)).hits, current_batch_size := (es (mergedBody c.body 0 c.batch_size)).hits.length }, some (mergedBody c.body 0 c.batch_size, (es (mergedBody c.body 0 c.batch_size)).hits), false⟩ := by
  simp only [ESCursor.iter, ESCursor.fetch_next_batch]
  norm_num
  rw [if_neg (by omega)]
  exact ⟨rfl, rfl, rfl⟩

theorem runPass_stop (es : Backend) (fuel : Nat) (c : ESCursor) (h : c.total_number ≤ 0) :
    ESCursor.runPass es fuel c =
      ⟨[], [], { c with offset := 0, inbtach_idx := 0, current_batch_size := 0 }, true⟩ := by
  simp only [ESCursor.runPass]
  rw [iter_stop es c h]
  rfl

theorem runPass_go (es : Backend) (fuel : Nat) (c : ESCursor) (h : 0 < c.total_number) :
    ESCursor.runPass es fuel c =
      ⟨(ESCursor.run es fuel { c with offset := 0, inbtach_idx := 0, hits := (es (mergedBody c.body 0 c.batch_size)).hits, current_batch_size := (es (mergedBody c.body 0 c.batch_size)).hits.length }).docs, (mergedBody c.body 0 c.batch_size, (es (mergedBody c.body 0 c.batch_size)).hits) :: (ESCursor.run es fuel { c with offset := 0, inbtach_idx := 0, hits := (es (mergedBody c.body 0 c.batch_size)).hits, current_batch_size := (es (mergedBody c.body 0 c.batch_size)).hits.length }).log, (ESCursor.run es fuel { c with offset := 0, inbtach_idx := 0, hits := (es (mergedBody c.body 0 c.batch_size)).hits, current_batch_size := (es (mergedBody c.body 0 c.batch_size)).hits.length }).state, (ESCursor.run es fuel { c with offset := 0, inbtach_idx := 0, hits := (es (mergedBody c.body 0 c.batch_size)).hits, current_batch_size := (es (mergedBody c.body 0 c.batch_size)).hits.length }).finished⟩ := by
  simp only [ESCursor.runPass]
  rw [iter_go es c h]
  rfl

/-! ### The request log of a run is chained -/

theorem run_chained (es : Backend) : ∀ (fuel : Nat) (c : ESCursor),
    ChainedLog c.body c.batch_size (c.offset + (c.current_batch_size : Int))
      (ESCursor.run es fuel c).log := by
  intro fuel
  induction fuel with
  | zero => intro c; exact ChainedLog.nil _
  | succ n ih =>
    intro c
    rcases Nat.lt_or_ge c.inbtach_idx c.current_batch_size with hlt | hge
    · have hn := next_yield es c hlt
      have hr : (ESCursor.next es c).result = some (c.hits.getD c.inbtach_idx 0) := by rw [hn]
      rw [run_succ_some es n c _ hr, hn]
      simpa using ih { c with inbtach_idx := c.inbtach_idx + 1 }
    · rcases le_or_lt c.total_number (c.offset + (c.current_batch_size : Int)) with hstop | hgo
      · have hn := next_stop es c hge hstop
        have hr : (ESCursor.next es c).result = none := by rw [hn]
        rw [run_succ_none es n c hr, hn]
        exact ChainedLog.nil _
      · cases hh : (es (mergedBody c.body (c.offset + (c.current_batch_size : Int)) c.batch_size)).hits with
        | nil =>
          have hn := next_fetch_empty es c hge hgo hh
          have hr : (ESCursor.next es c).result = none := by rw [hn]
          rw [run_succ_none es n c hr, hn]
          exact ChainedLog.cons _ [] [] (ChainedLog.nil _)
        | cons d t =>
          have hn := next_fetch_cons es c d t hge hgo hh
          have hr : (ESCursor.next es c).result = some d := by rw [hn]
          rw [run_succ_some es n c d hr, hn]
          exact ChainedLog.cons _ (d :: t) _
            (ih { c with offset := c.offset + (c.current_batch_size : Int), hits := d :: t, current_batch_size := t.length + 1, inbtach_idx := 1 })

theorem runPass_chained (es : Backend) (fuel : Nat) (c : ESCursor) :
    ChainedLog c.body c.batch_size 0 (ESCursor.runPass es fuel c).log := by
  rcases le_or_lt c.total_number 0 with hstop | hgo
  · rw [runPass_stop es fuel c hstop]
    exact ChainedLog.nil _
  · rw [runPass_go es fuel c hgo]
    exact ChainedLog.cons _ _ _
      (by simpa using run_chained es fuel { c with offset := 0, inbtach_idx := 0, hits := (es (mergedBody c.body 0 c.batch_size)).hits, current_batch_size := (es (mergedBody c.body 0 c.batch_size)).hits.length })

/-! ### A finished run yields exactly the concatenation of its windows -/

theorem run_docs_join (es : Backend) : ∀ (fuel : Nat) (c : ESCursor),
    c.inbtach_idx ≤ c.current_batch_size →
    c.current_batch_size = c.hits.length →
    (ESCursor.run es fuel c).finished = true →
    (ESCursor.run es fuel c).docs =
      c.hits.drop c.inbtach_idx ++ ((ESCursor.run es fuel c).log.map Prod.snd).flatten := by
  intro fuel
  induction fuel with
  | zero => intro c _ _ hf; exact absurd hf (by simp [run_zero])
  | succ n ih =>
    intro c h1 h2 hf
    rcases Nat.lt_or_ge c.inbtach_idx c.current_batch_size with hlt | hge
    · have hn := next_yield es c hlt
      have hr : (ESCursor.next es c).result = some (c.hits.getD c.inbtach_idx 0) := by rw [hn]
      rw [run_succ_some es n c _ hr, hn] at hf ⊢
      have ihh := ih { c with inbtach_idx := c.inbtach_idx + 1 }
        (by simpa using hlt) (by simpa using h2) hf
      have hd : c.hits.drop c.inbtach_idx =
          c.hits.getD c.inbtach_idx 0 :: c.hits.drop (c.inbtach_idx + 1) :=
        drop_getD_cons _ _ (by omega)
      simp only at ihh ⊢
      rw [ihh, hd]
      simp
    · rcases le_or_lt c.total_number (c.offset + (c.current_batch_size : Int)) with hstop | hgo
      · have hn := next_stop es c hge hstop
        have hr : (ESCursor.next es c).result = none := by rw [hn]
        rw [run_succ_none es n c hr, hn]
        simp [List.drop_eq_nil_of_le (by omega : c.hits.length ≤ c.inbtach_idx)]
      · cases hh : (es (mergedBody c.body (c.offset + (c.current_batch_size : Int)) c.batch_size)).hits with
        | nil =>
          have hn := next_fetch_empty es c hge hgo hh
          have hr : (ESCursor.next es c).result = none := by rw [hn]
          rw [run_succ_none es n c hr, hn]
          simp [List.drop_eq_nil_of_le (by omega : c.hits.length ≤ c.inbtach_idx)]
        | cons d t =>
          have hn := next_fetch_cons es c d t hge hgo hh
          have hr : (ESCursor.next es c).result = some d := by rw [hn]
          rw [run_succ_some es n c d hr, hn] at hf ⊢
          have ihh := ih { c with offset := c.offset + (c.current_batch_size : Int), hits := d :: t, current_batch_size := t.length + 1, inbtach_idx := 1 }
            (by simp) (by simp) hf
          simp only at ihh ⊢
          rw [ihh]
          simp [List.drop_eq_nil_of_le (by omega : c.hits.length ≤ c.inbtach_idx)]

theorem runPass_docs_join (es : Backend) (fuel : Nat) (c : ESCursor)
    (hf : (ESCursor.runPass es fuel c).finished = true) :
    (ESCursor.runPass es fuel c).docs =
      ((ESCursor.runPass es fuel c).log.map Prod.snd).flatten := by
  rcases le_or_lt c.total_number 0 with hstop | hgo
  · rw [runPass_stop es fuel c hstop]
    rfl
  · rw [runPass_go es fuel c hgo] at hf ⊢
    have hj := run_docs_join es fuel
      { c with offset := 0, inbtach_idx := 0, hits := (es (mergedBody c.body 0 c.batch_size)).hits, current_batch_size := (es (mergedBody c.body 0 c.batch_size)).hits.length }
      (by simp) (by simp) hf
    simp only at hj ⊢
    rw [hj]
    simp

/-! ### Runs against a slice backend yield a contiguous segment of the list -/

theorem run_slice_take (L : List Nat) : ∀ (fuel : Nat) (c : ESCursor),
    c.inbtach_idx ≤ c.current_batch_size →
    c.current_batch_size = c.hits.length →
    0 ≤ c.offset →
    (∃ m, c.hits = (L.drop c.offset.toNat).take m) →
    ∃ k, (ESCursor.run (sliceBackend L) fuel c).docs =
      (L.drop (c.offset.toNat + c.inbtach_idx)).take k := by
  intro fuel
  induction fuel with
  | zero => intro c _ _ _ _; exact ⟨0, by simp [run_zero]⟩
  | succ n ih =>
    intro c h1 h2 h0 hchar
    obtain ⟨m, hm⟩ := hchar
    rcases Nat.lt_or_ge c.inbtach_idx c.current_batch_size with hlt | hge
    · have hn := next_yield (sliceBackend L) c hlt
      have hr : (ESCursor.next (sliceBackend L) c).result = some (c.hits.getD c.inbtach_idx 0) := by
        rw [hn]
      rw [run_succ_some (sliceBackend L) n c _ hr, hn]
      have hlen : c.inbtach_idx < m ∧ c.offset.toNat + c.inbtach_idx < L.length := by
        have hl := hlt
        rw [h2, hm] at hl
        simp only [List.length_take, List.length_drop] at hl
        omega
      obtain ⟨k, hk⟩ := ih { c with inbtach_idx := c.inbtach_idx + 1 }
        (by simpa using hlt) (by simpa using h2) (by simpa using h0)
        ⟨m, by simpa using hm⟩
      simp only at hk
      have harith : c.offset.toNat + (c.inbtach_idx + 1) = (c.offset.toNat + c.inbtach_idx) + 1 := by
        omega
      rw [harith] at hk
      have hhead : c.hits.getD c.inbtach_idx 0 = L.getD (c.offset.toNat + c.inbtach_idx) 0 := by
        rw [hm, getD_take _ _ _ hlen.1, getD_drop]
      refine ⟨k + 1, ?_⟩
      simp only
      rw [drop_getD_cons L (c.offset.toNat + c.inbtach_idx) hlen.2, List.take_succ_cons, hhead, hk]
    · rcases le_or_lt c.total_number (c.offset + (c.current_batch_size : Int)) with hstop | hgo
      · have hn := next_stop (sliceBackend L) c hge hstop
        have hr : (ESCursor.next (sliceBackend L) c).result = none := by rw [hn]
        rw [run_succ_none (sliceBackend L) n c hr, hn]
        exact ⟨0, by simp⟩
      · cases hh : (sliceBackend L (mergedBody c.body (c.offset + (c.current_batch_size : Int)) c.batch_size)).hits with
        | nil =>
          have hn := next_fetch_empty (sliceBackend L) c hge hgo hh
          have hr : (ESCursor.next (sliceBackend L) c).result = none := by rw [hn]
          rw [run_succ_none (sliceBackend L) n c hr, hn]
          exact ⟨0, by simp⟩
        | cons d t =>
          have hn := next_fetch_cons (sliceBackend L) c d t hge hgo hh
          have hr : (ESCursor.next (sliceBackend L) c).result = some d := by rw [hn]
          rw [run_succ_some (sliceBackend L) n c d hr, hn]
          have hchar2 : (d :: t : List Nat) =
              (L.drop (c.offset + (c.current_batch_size : Int)).toNat).take c.batch_size.toNat := by
            rw [← hh, sliceBackend_merged]
          have hlen2 : (c.offset + (c.current_batch_size : Int)).toNat < L.length := by
            have := congrArg List.length hchar2
            simp only [List.length_cons, List.length_take, List.length_drop] at this
            omega
          obtain ⟨k, hk⟩ := ih { c with offset := c.offset + (c.current_batch_size : Int), hits := d :: t, current_batch_size := t.length + 1, inbtach_idx := 1 }
            (by simp) (by simp) (by simp; omega) ⟨c.batch_size.toNat, by simpa using hchar2⟩
          simp only at hk
          have hhead2 : d = L.getD (c.offset + (c.current_batch_size : Int)).toNat 0 := by
            have hg : (d :: t : List Nat).getD 0 0 = d := rfl
            rw [← hg, hchar2, getD_take, getD_drop]
            · simp
            · have := congrArg List.length hchar2
              simp only [List.length_cons, List.length_take, List.length_drop] at this
              omega
          have harith2 : c.offset.toNat + c.inbtach_idx = (c.offset + (c.current_batch_size : Int)).toNat := by
            omega
          refine ⟨k + 1, ?_⟩
          simp only
          rw [harith2, drop_getD_cons L _ hlen2, List.take_succ_cons, ← hhead2, hk]

theorem runPass_slice_take (L : List Nat) (fuel : Nat) (c : ESCursor) :
    ∃ k, (ESCursor.runPass (sliceBackend L) fuel c).docs = L.take k := by
  rcases le_or_lt c.total_number 0 with hstop | hgo
  · exact ⟨0, by rw [runPass_stop _ fuel c hstop]; rfl⟩
  · rw [runPass_go _ fuel c hgo]
    obtain ⟨k, hk⟩ := run_slice_take L fuel
      { c with offset := 0, inbtach_idx := 0, hits := (sliceBackend L (mergedBody c.body 0 c.batch_size)).hits, current_batch_size := (sliceBackend L (mergedBody c.body 0 c.batch_size)).hits.length }
      (by simp) (by simp) (by simp)
      ⟨c.batch_size.toNat, by simpa using sliceBackend_merged L c.body 0 c.batch_size⟩
    exact ⟨k, by simpa using hk⟩

/-! ### `__init__` field computations -/

theorem init_total_none (es : Backend) (body : Body) (bs : Int) :
    (ESCursor.init es body none bs).total_number = (get_total_hits es body : Int) := rfl

theorem init_total_some (es : Backend) (body : Body) (n bs : Int) :
    (ESCursor.init es body (some n) bs).total_number =
      if n > (get_total_hits es body : Int) then (get_total_hits es body : Int) else n := rfl

theorem init_batch (es : Backend) (body : Body) (tn : Option Int) (bs : Int) :
    (ESCursor.init es body tn bs).batch_size =
      if bs < (ESCursor.init es body tn bs).total_number then bs
      else (ESCursor.init es body tn bs).total_number := rfl

/-! ### Exhaustion is terminal: one-step lemma -/

theorem next_none_step (es : Backend) (c : ESCursor)
    (h : (ESCursor.next es c).result = none) :
    (ESCursor.next es (ESCursor.next es c).state).result = none := by
  rcases Nat.lt_or_ge c.inbtach_idx c.current_batch_size with hlt | hge
  · rw [next_yield es c hlt] at h
    exact absurd h (by simp)
  · rcases le_or_lt c.total_number (c.offset + (c.current_batch_size : Int)) with hstop | hgo
    · rw [next_stop es c hge hstop]
      rw [next_stop es { c with offset := c.offset + (c.current_batch_size : Int) }
        (by exact hge)
        (by show c.total_number ≤ c.offset + (c.current_batch_size : Int) + (c.current_batch_size : Int); omega)]
    · cases hh : (es (mergedBody c.body (c.offset + (c.current_batch_size : Int)) c.batch_size)).hits with
      | nil =>
        rw [next_fetch_empty es c hge hgo hh]
        have e1 : c.offset + (c.current_batch_size : Int) + ((0 : Nat) : Int) =
            c.offset + (c.current_batch_size : Int) := by simp
        rw [next_fetch_empty es
          { c with offset := c.offset + (c.current_batch_size : Int), hits := [], current_batch_size := 0, inbtach_idx := 0 }
          (by exact Nat.le_refl 0)
          (by show c.offset + (c.current_batch_size : Int) + ((0 : Nat) : Int) < c.total_number; omega)
          (by show (es (mergedBody c.body (c.offset + (c.current_batch_size : Int) + ((0 : Nat) : Int)) c.batch_size)).hits = []; rw [e1]; exact hh)]
      | cons d t =>
        rw [next_fetch_cons es c d t hge hgo hh] at h
        exact absurd h (by simp)

/-! ### Consequences of a chained log -/

theorem chainedLog_step (bd : Body) (B : Int) : ∀ (o : Int) (l : List (Body × List Nat)),
    ChainedLog bd B o l → ∀ (j : Nat) (hj : j + 1 < l.length),
    ∃ a : Int, lookupKey (l.get ⟨j, by omega⟩).1 "from" = some a ∧
      lookupKey (l.get ⟨j + 1, hj⟩).1 "from" =
        some (a + ((l.get ⟨j, by omega⟩).2.length : Int)) := by
  intro o l hcl
  induction hcl with
  | nil => intro j hj; simp at hj
  | cons o h rest hrest ih =>
    intro j hj
    cases j with
    | zero =>
      cases hrest with
      | nil => simp at hj
      | cons o2 h2 rest2 hrest2 =>
        exact ⟨o, mergedBody_from bd o B, mergedBody_from bd (o + (h.length : Int)) B⟩
    | succ j2 =>
      have hj2 : j2 + 1 < rest.length := by simpa using hj
      obtain ⟨a, ha1, ha2⟩ := ih j2 hj2
      exact ⟨a, ha1, ha2⟩

theorem chainedLog_strict_mono (bd : Body) (B : Int) (o : Int) (l : List (Body × List Nat))
    (hcl : ChainedLog bd B o l) (hne : ∀ e ∈ l, e.2 ≠ []) :
    ∀ (j : Nat) (hj : j + 1 < l.length),
    ∃ a b2 : Int, lookupKey (l.get ⟨j, by omega⟩).1 "from" = some a ∧
      lookupKey (l.get ⟨j + 1, hj⟩).1 "from" = some b2 ∧ a < b2 := by
  intro j hj
  obtain ⟨a, ha1, ha2⟩ := chainedLog_step bd B o l hcl j hj
  refine ⟨a, a + ((l.get ⟨j, by omega⟩).2.length : Int), ha1, ha2, ?_⟩
  have hmem : (l.get ⟨j, by omega⟩) ∈ l := l.get_mem _ _
  have hlen : (l.get ⟨j, by omega⟩).2.length ≠ 0 := by
    intro h0
    exact hne _ hmem (List.eq_nil_of_length_eq_zero h0)
  omega

/-! ## Claim theorems -/

/-- C1: for every construction over a backend whose count request reports
actual total `T = get_total_hits es body`, a supplied requested limit `n`
gives `total_number = min n T`, an absent limit gives `total_number = T`,
and in either case `batch_size = min bs total_number` for the configured
batch size `bs`. -/
theorem c1_effective_total_and_batch (es : Backend) (body : Body) (n bs : Int)
    (tn : Option Int) :
    (ESCursor.init es body (some n) bs).total_number =
      min n (get_total_hits es body : Int) ∧
    (ESCursor.init es body none bs).total_number = (get_total_hits es body : Int) ∧
    (ESCursor.init es body tn bs).batch_size =
      min bs (ESCursor.init es body tn bs).total_number := by
  refine ⟨?_, rfl, ?_⟩
  · rw [init_total_some, min_def]
    split_ifs <;> omega
  · rw [init_batch, min_def]
    split_ifs <;> omega

/-- C2: evaluation at the failing input.  Against a backend holding 30
matching documents, a cursor constructed with requested limit 25 and
batch size 10 fixes `total_number = 25`, yet a full finished pass yields
30 documents: the final window is fetched whole at offset 20 and never
truncated to the 5 documents that would respect the limit.  This
contradicts the claimed invariant (and the source's own comment that
`total_number` is the maximum number of documents the user wants). -/
theorem c2_limit_overshoot :
    (ESCursor.init (sliceBackend (List.range 30)) [] (some 25) 10).total_number = 25 ∧
    (ESCursor.runPass (sliceBackend (List.range 30)) 40 (ESCursor.init (sliceBackend (List.range 30)) [] (some 25) 10)).docs.length = 30 ∧
    (ESCursor.runPass (sliceBackend (List.range 30)) 40 (ESCursor.init (sliceBackend (List.range 30)) [] (some 25) 10)).finished = true := by
  decide

/-- C3: over the backend serving windows of the ordered match list `L`,
every finished pass yields exactly the concatenation of the successive
windows it fetched, and that sequence is an initial segment `L.take k` of
`L` — no document duplicated, no offset skipped; in the concrete scenario
`L = range 25`, no limit, batch size 10, the fetch offsets are 0, 10, 20
in order, the window sizes 10, 10, 5, and exactly the 25 documents are
yielded. -/
theorem c3_window_concatenation :
    (∀ (L : List Nat) (fuel : Nat) (body : Body) (tn : Option Int) (bs : Int),
      (ESCursor.runPass (sliceBackend L) fuel (ESCursor.init (sliceBackend L) body tn bs)).finished = true →
      (ESCursor.runPass (sliceBackend L) fuel (ESCursor.init (sliceBackend L) body tn bs)).docs =
        ((ESCursor.runPass (sliceBackend L) fuel (ESCursor.init (sliceBackend L) body tn bs)).log.map Prod.snd).flatten ∧
      ∃ k, (ESCursor.runPass (sliceBackend L) fuel (ESCursor.init (sliceBackend L) body tn bs)).docs = L.take k) ∧
    ((ESCursor.runPass (sliceBackend (List.range 25)) 30 (ESCursor.init (sliceBackend (List.range 25)) [] none 10)).log.map (fun e => lookupKey e.1 "from") = [some 0, some 10, some 20] ∧
      (ESCursor.runPass (sliceBackend (List.range 25)) 30 (ESCursor.init (sliceBackend (List.range 25)) [] none 10)).log.map (fun e => e.2.length) = [10, 10, 5] ∧
      (ESCursor.runPass (sliceBackend (List.range 25)) 30 (ESCursor.init (sliceBackend (List.range 25)) [] none 10)).docs = List.range 25 ∧
      (ESCursor.runPass (sliceBackend (List.range 25)) 30 (ESCursor.init (sliceBackend (List.range 25)) [] none 10)).finished = true) := by
  refine ⟨fun L fuel body tn bs hf => ⟨runPass_docs_join _ fuel _ hf, runPass_slice_take L fuel _⟩, ?_⟩
  decide

/-- C3 witness: the general half of `c3_window_concatenation` applied to
the concrete scenario, its `finished` hypothesis discharged by
evaluation. -/
theorem c3_window_concatenation_witness :
    (ESCursor.runPass (sliceBackend (List.range 25)) 30 (ESCursor.init (sliceBackend (List.range 25)) [] none 10)).docs =
      ((ESCursor.runPass (sliceBackend (List.range 25)) 30 (ESCursor.init (sliceBackend (List.range 25)) [] none 10)).log.map Prod.snd).flatten ∧
    ∃ k, (ESCursor.runPass (sliceBackend (List.range 25)) 30 (ESCursor.init (sliceBackend (List.range 25)) [] none 10)).docs = (List.range 25).take k :=
  c3_window_concatenation.1 (List.range 25) 30 [] none 10 (by decide)

/-- C4 counterexample: with `c4Backend` (count total 25, batch size 10)
the window fetched at offset 10 is short — 3 documents instead of the
requested 10 — yet the cursor does not stop there: the pass issues two
further windowed search requests, at offsets 13 and 23, and yields 33
documents in total, refuting both "signals exhaustion" and "issuing no
further windowed search request" after a short non-empty window. -/
theorem c4_short_window_counterexample :
    (ESCursor.runPass c4Backend 60 (ESCursor.init c4Backend [] none 10)).log.map (fun e => (lookupKey e.1 "from", e.2.length)) = [(some 0, 10), (some 10, 3), (some 13, 10), (some 23, 10)] ∧
    (ESCursor.runPass c4Backend 60 (ESCursor.init c4Backend [] none 10)).docs.length = 33 ∧
    (ESCursor.runPass c4Backend 60 (ESCursor.init c4Backend [] none 10)).finished = true ∧
    (ESCursor.init c4Backend [] none 10).total_number = 25 := by
  decide

/-- C4 (amended): in the Scenario-D pass over `c4DeletionBackend`
(effective total 25, batch size 10, the fetch at offset 10 returns only 3
documents because the remaining matches were deleted, later offsets
empty), the cursor yields the 13 available documents, then issues exactly
one further windowed search request at offset 13 = 10 + 3; that request
returns an empty window and only then is exhaustion signalled, even
though 13 < 25. -/
theorem c4_short_window_amended :
    (ESCursor.runPass c4DeletionBackend 40 (ESCursor.init c4DeletionBackend [] none 10)).docs = List.range 13 ∧
    (ESCursor.runPass c4DeletionBackend 40 (ESCursor.init c4DeletionBackend [] none 10)).log.map (fun e => (lookupKey e.1 "from", e.2.length)) = [(some 0, 10), (some 10, 3), (some 13, 0)] ∧
    (ESCursor.runPass c4DeletionBackend 40 (ESCursor.init c4DeletionBackend [] none 10)).finished = true ∧
    (ESCursor.init c4DeletionBackend [] none 10).total_number = 25 := by
  decide

/-- C5 counterexample: against `emptyBackend5` (count total 5, every
window empty) one pass issues two windowed fetches, both with
`from = 0` — the fetch offsets do not strictly increase, since the offset
advances by the previous window's actual size, which is 0. -/
theorem c5_offset_counterexample :
    (ESCursor.runPass emptyBackend5 10 (ESCursor.init emptyBackend5 [] none 10000)).log.map (fun e => lookupKey e.1 "from") = [some 0, some 0] ∧
    (ESCursor.runPass emptyBackend5 10 (ESCursor.init emptyBackend5 [] none 10000)).finished = true := by
  decide

/-- C5 (amended): every windowed request body of a pass is the stored
template merged with `from = offset` and `size = batch_size`, the paging
fields overriding same-named template fields and every other template
field preserved; the offset of each fetch is the previous offset advanced
by exactly the actual size of the previously returned window (ChainedLog),
and the offsets are strictly increasing whenever every returned window is
non-empty (after an empty window the one follow-up fetch repeats the same
offset). -/
theorem c5_windowing_amended (es : Backend) (fuel : Nat) (body : Body)
    (tn : Option Int) (bs : Int) :
    ChainedLog body (ESCursor.init es body tn bs).batch_size 0
      (ESCursor.runPass es fuel (ESCursor.init es body tn bs)).log ∧
    (∀ (bd : Body) (o B : Int),
      lookupKey (mergedBody bd o B) "from" = some o ∧
      lookupKey (mergedBody bd o B) "size" = some B) ∧
    (∀ (bd : Body) (o B : Int) (k : String), k ≠ "from" → k ≠ "size" →
      lookupKey (mergedBody bd o B) k = lookupKey bd k) ∧
    (∀ (bd : Body) (B o : Int) (l : List (Body × List Nat)),
      ChainedLog bd B o l → (∀ e ∈ l, e.2 ≠ []) →
      ∀ (j : Nat) (hj : j + 1 < l.length),
      ∃ a b2 : Int, lookupKey (l.get ⟨j, by omega⟩).1 "from" = some a ∧
        lookupKey (l.get ⟨j + 1, hj⟩).1 "from" = some b2 ∧ a < b2) := by
  refine ⟨?_, ?_, ?_, ?_⟩
  · have h := runPass_chained es fuel (ESCursor.init es body tn bs)
    simpa using h
  · exact fun bd o B => ⟨mergedBody_from bd o B, mergedBody_size bd o B⟩
  · exact fun bd o B k h1 h2 => mergedBody_other bd o B k h1 h2
  · exact fun bd B o l hcl hne => chainedLog_strict_mono bd B o l hcl hne

/-- C5 witness: the amended theorem applied at concrete inputs — paging
fields override a template `from` field, a non-paging template field is
preserved, and in the Scenario-A pass the first two fetch offsets strictly
increase. -/
theorem c5_windowing_amended_witness :
    lookupKey (mergedBody [("from", (99 : Int))] 3 7) "from" = some 3 ∧
    lookupKey (mergedBody [("q", (1 : Int))] 3 7) "q" = some 1 ∧
    (∃ a b2 : Int,
      lookupKey ((ESCursor.runPass (sliceBackend (List.range 25)) 30 (ESCursor.init (sliceBackend (List.range 25)) [] none 10)).log.get ⟨0, by decide⟩).1 "from" = some a ∧
      lookupKey ((ESCursor.runPass (sliceBackend (List.range 25)) 30 (ESCursor.init (sliceBackend (List.range 25)) [] none 10)).log.get ⟨0 + 1, by decide⟩).1 "from" = some b2 ∧ a < b2) := by
  refine ⟨((c5_windowing_amended (sliceBackend []) 1 [] none 1).2.1 [("from", 99)] 3 7).1,
    (c5_windowing_amended (sliceBackend []) 1 [] none 1).2.2.1 [("q", 1)] 3 7 "q" (by decide) (by decide), ?_⟩
  exact (c5_windowing_amended (sliceBackend (List.range 25)) 30 [] none 10).2.2.2
    [] (ESCursor.init (sliceBackend (List.range 25)) [] none 10).batch_size 0
    (ESCursor.runPass (sliceBackend (List.range 25)) 30 (ESCursor.init (sliceBackend (List.range 25)) [] none 10)).log
    ((c5_windowing_amended (sliceBackend (List.range 25)) 30 [] none 10).1)
    (by decide) 0 (by decide)

/-- C6: a cursor whose effective total is zero yields no documents:
beginning iteration signals end-of-sequence immediately, the pass issues
zero windowed search requests, and construction itself issued exactly the
one count request. -/
theorem c6_zero_total (es : Backend) (fuel : Nat) (body : Body)
    (tn : Option Int) (bs : Int)
    (h : (ESCursor.init es body tn bs).total_number = 0) :
    (ESCursor.runPass es fuel (ESCursor.init es body tn bs)).docs = [] ∧
    (ESCursor.runPass es fuel (ESCursor.init es body tn bs)).log = [] ∧
    (ESCursor.runPass es fuel (ESCursor.init es body tn bs)).finished = true ∧
    (constructorRequests body).length = 1 := by
  rw [runPass_stop es fuel _ (le_of_eq h)]
  exact ⟨rfl, rfl, rfl, rfl⟩

/-- C6 witness: `c6_zero_total` at an empty backend, the zero-total
hypothesis discharged by evaluation. -/
theorem c6_zero_total_witness :
    (ESCursor.runPass (sliceBackend []) 5 (ESCursor.init (sliceBackend []) [("q", (1 : Int))] none 10000)).docs = [] ∧
    (ESCursor.runPass (sliceBackend []) 5 (ESCursor.init (sliceBackend []) [("q", (1 : Int))] none 10000)).log = [] ∧
    (ESCursor.runPass (sliceBackend []) 5 (ESCursor.init (sliceBackend []) [("q", (1 : Int))] none 10000)).finished = true ∧
    (constructorRequests [("q", (1 : Int))]).length = 1 :=
  c6_zero_total (sliceBackend []) 5 [("q", 1)] none 10000 (by decide)

/-- C7: once a `__next__` call has signalled end-of-sequence, every
subsequent `__next__` call against the unchanged backend signals
end-of-sequence again (for any number `k` of further calls), whether
exhaustion came from the offset reaching the effective total or from an
empty window. -/
theorem c7_exhaustion_terminal (es : Backend) (c : ESCursor) (k : Nat)
    (h : (ESCursor.next es c).result = none) :
    (ESCursor.next es (ESCursor.iterateNext es (ESCursor.next es c).state k)).result = none := by
  induction k with
  | zero => exact next_none_step es c h
  | succ k2 ih => exact next_none_step es _ ih

/-- C7 witness: a cursor over an empty backend signals end-of-sequence at
once, and still does so two calls later. -/
theorem c7_exhaustion_terminal_witness :
    (ESCursor.next (sliceBackend []) (ESCursor.iterateNext (sliceBackend []) (ESCursor.next (sliceBackend []) (ESCursor.init (sliceBackend []) [] none 10000)).state 2)).result = none :=
  c7_exhaustion_terminal (sliceBackend []) (ESCursor.init (sliceBackend []) [] none 10000) 2 (by decide)

/-- C8 counterexample: a caller body that already contains a `size` field
is sent to the count request unchanged — `get_total_hits` only forces
`size = 0` when the key is absent, so the count request body for
`[("size", 5)]` keeps `size = 5`, not 0. -/
theorem c8_size_counterexample :
    countBody [("size", (5 : Int))] = [("size", (5 : Int))] ∧
    lookupKey (countBody [("size", (5 : Int))]) "size" = some 5 := by
  decide

/-- C8 (amended): the constructor issues exactly one count request; its
body is the caller's query body with `size` set to 0 when the body lacks
a `size` field (all other fields preserved), while a body already
containing `size` is sent unchanged. -/
theorem c8_count_request_amended (body : Body) (k : String) :
    (hasKey body "size" = false → lookupKey (countBody body) "size" = some 0) ∧
    (hasKey body "size" = true → countBody body = body) ∧
    (hasKey body "size" = false → k ≠ "size" →
      lookupKey (countBody body) k = lookupKey body k) ∧
    (constructorRequests body).length = 1 := by
  refine ⟨?_, ?_, ?_, rfl⟩
  · intro h
    rw [countBody, if_neg (by simp [h]), lookupKey_setKey_self]
  · intro h
    rw [countBody, if_pos h]
  · intro h hk
    rw [countBody, if_neg (by simp [h]), lookupKey_setKey_ne _ _ _ _ hk]

/-- C8 witness: the amended theorem at concrete bodies with and without a
`size` field. -/
theorem c8_count_request_amended_witness :
    lookupKey (countBody [("q", (1 : Int))]) "size" = some 0 ∧
    countBody [("size", (5 : Int))] = [("size", (5 : Int))] ∧
    lookupKey (countBody [("q", (1 : Int))]) "q" = some 1 :=
  ⟨(c8_count_request_amended [("q", 1)] "q").1 (by decide),
    (c8_count_request_amended [("size", 5)] "q").2.1 (by decide),
    (c8_count_request_amended [("q", 1)] "q").2.2.1 (by decide) (by decide)⟩

/-- C9: the stored query body template is never mutated: construction
stores the caller's template as given, and `__iter__`, `__next__` and a
whole pass leave the stored template equal to its original value (the
count request works on a copy and each windowed request merges into a
fresh body, modelled by the persistent `countBody` and `mergedBody`). -/
theorem c9_template_not_mutated (es : Backend) (body : Body) (tn : Option Int)
    (bs : Int) (fuel : Nat) (c : ESCursor) :
    (ESCursor.init es body tn bs).body = body ∧
    (ESCursor.iter es c).state.body = c.body ∧
    (ESCursor.next es c).state.body = c.body ∧
    (ESCursor.runPass es fuel c).state.body = c.body :=
  ⟨rfl, (iter_preserved es c).1, (next_preserved es c).1, (runPass_preserved es fuel c).1⟩

/-- C10: a requested limit `n ≤ 0` (including negative values) is stored
as `total_number = n` unchanged — it is not clamped to zero — and
beginning iteration signals end-of-sequence immediately, with no windowed
search request issued. -/
theorem c10_nonpositive_limit (es : Backend) (body : Body) (bs : Int)
    (fuel : Nat) (n : Int) (h : n ≤ 0) :
    (ESCursor.init es body (some n) bs).total_number = n ∧
    (ESCursor.runPass es fuel (ESCursor.init es body (some n) bs)).docs = [] ∧
    (ESCursor.runPass es fuel (ESCursor.init es body (some n) bs)).log = [] ∧
    (ESCursor.runPass es fuel (ESCursor.init es body (some n) bs)).finished = true := by
  have ht : (ESCursor.init es body (some n) bs).total_number = n := by
    rw [init_total_some, if_neg (by omega)]
  refine ⟨ht, ?_, ?_, ?_⟩ <;>
    rw [runPass_stop es fuel _ (by rw [ht]; exact h)]

/-- C10 witness: `c10_nonpositive_limit` at limit -5 over a backend
holding three documents. -/
theorem c10_nonpositive_limit_witness :
    (ESCursor.init (sliceBackend [3, 4, 5]) [] (some (-5)) 10).total_number = -5 ∧
    (ESCursor.runPass (sliceBackend [3, 4, 5]) 5 (ESCursor.init (sliceBackend [3, 4, 5]) [] (some (-5)) 10)).docs = [] ∧
    (ESCursor.runPass (sliceBackend [3, 4, 5]) 5 (ESCursor.init (sliceBackend [3, 4, 5]) [] (some (-5)) 10)).log = [] ∧
    (ESCursor.runPass (sliceBackend [3, 4, 5]) 5 (ESCursor.init (sliceBackend [3, 4, 5]) [] (some (-5)) 10)).finished = true :=
  c10_nonpositive_limit (sliceBackend [3, 4, 5]) [] 10 5 (-5) (by decide)
